import Mathlib

/-
Verification of the IISLogger ingestion pipeline (ReadIISLogs.py, GeolocateIPs.py,
Util.py) against its specification.

The embedding models:
  * calendar dates, times of day and combined timestamps as Nat-field structures
    with the lexicographic orders the Python datetime comparisons use;
  * readNewerLogs (ReadIISLogs.py, lines 156-248): filename-date extraction,
    file selection against the watermark, the boundary-file row filter, field
    truncation, and the outer exception handler that returns the initial empty
    dataframe when any filename fails to parse;
  * readFileTheHardWay (lines 121-153): the tolerant line-by-line fallback parse;
  * the method / URI filter stage of the main block (lines 374-395);
  * readLastDateTimeProcessed (lines 63-118) and GeolocateIPs.getIPsToLookup
    (lines 39-74) over an abstract database-query outcome;
  * the try/except/finally observable-event skeleton of both main blocks.
-/

namespace IISLogger

/-- Calendar date, as produced by datetime.date / datetime.strptime. -/
structure Date where
  year : Nat
  month : Nat
  day : Nat
deriving DecidableEq, Repr

/-- Time of day at second granularity, as used by the log_time column. -/
structure Time where
  hour : Nat
  minute : Nat
  second : Nat
deriving DecidableEq, Repr

/-- Combined timestamp, as built by datetime.datetime(y, m, d, h, mi, s). -/
structure DateTime where
  date : Date
  time : Time
deriving DecidableEq, Repr

/-- Strict order on dates: the comparison Python performs on datetime.date values. -/
def Date.lt (a b : Date) : Bool :=
  decide (a.year < b.year) ||
    (decide (a.year = b.year) &&
      (decide (a.month < b.month) ||
        (decide (a.month = b.month) && decide (a.day < b.day))))

/-- Non-strict order on dates (a <= b), used for the oFileDate >= watermark check. -/
def Date.le (a b : Date) : Bool :=
  Date.lt a b || a == b

/-- Strict order on times of day. -/
def Time.lt (a b : Time) : Bool :=
  decide (a.hour < b.hour) ||
    (decide (a.hour = b.hour) &&
      (decide (a.minute < b.minute) ||
        (decide (a.minute = b.minute) && decide (a.second < b.second))))

/-- Strict order on combined timestamps: the comparison pandas performs when
evaluating df_tmp["log_datetime"] > sdatetimeLastStored. -/
def DateTime.lt (a b : DateTime) : Bool :=
  Date.lt a.date b.date || (a.date == b.date && Time.lt a.time b.time)

/-- Non-strict order on combined timestamps. -/
def DateTime.le (a b : DateTime) : Bool :=
  DateTime.lt a b || a == b

theorem date_lt_iff (a b : Date) :
    Date.lt a b = true ↔
      a.year < b.year ∨ (a.year = b.year ∧
        (a.month < b.month ∨ (a.month = b.month ∧ a.day < b.day))) := by
  simp [Date.lt, Bool.or_eq_true, Bool.and_eq_true, decide_eq_true_iff]

theorem date_le_iff (a b : Date) :
    Date.le a b = true ↔ (Date.lt a b = true ∨ a = b) := by
  simp [Date.le, Bool.or_eq_true, beq_iff_eq]

theorem time_lt_iff (a b : Time) :
    Time.lt a b = true ↔
      a.hour < b.hour ∨ (a.hour = b.hour ∧
        (a.minute < b.minute ∨ (a.minute = b.minute ∧ a.second < b.second))) := by
  simp [Time.lt, Bool.or_eq_true, Bool.and_eq_true, decide_eq_true_iff]

theorem dateTime_lt_iff (a b : DateTime) :
    DateTime.lt a b = true ↔
      (Date.lt a.date b.date = true ∨ (a.date = b.date ∧ Time.lt a.time b.time = true)) := by
  simp [DateTime.lt, Bool.or_eq_true, Bool.and_eq_true, beq_iff_eq]

theorem dateTime_le_iff (a b : DateTime) :
    DateTime.le a b = true ↔ (DateTime.lt a b = true ∨ a = b) := by
  simp [DateTime.le, Bool.or_eq_true, beq_iff_eq]

theorem date_eq_iff (a b : Date) :
    a = b ↔ a.year = b.year ∧ a.month = b.month ∧ a.day = b.day := by
  cases a; cases b; simp [Date.mk.injEq]

theorem time_eq_iff (a b : Time) :
    a = b ↔ a.hour = b.hour ∧ a.minute = b.minute ∧ a.second = b.second := by
  cases a; cases b; simp [Time.mk.injEq]

theorem dateTime_eq_iff (a b : DateTime) :
    a = b ↔ a.date = b.date ∧ a.time = b.time := by
  cases a; cases b; simp [DateTime.mk.injEq]

/-- Date strict order is asymmetric with the non-strict order. -/
theorem Date.le_of_not_lt {a b : Date} (h : Date.lt b a = false) : Date.le a b = true := by
  rw [← Bool.not_eq_true, date_lt_iff] at h
  push_neg at h
  rw [date_le_iff, date_lt_iff, date_eq_iff a b]
  omega

/-- A date below another is not above or equal to it. -/
theorem Date.not_le_of_lt {a b : Date} (h : Date.lt a b = true) : Date.le b a = false := by
  rw [date_lt_iff] at h
  rw [← Bool.not_eq_true, date_le_iff, date_lt_iff, date_eq_iff b a]
  omega

/-- Antisymmetry of the non-strict date order. -/
theorem Date.le_antisymm {a b : Date} (h1 : Date.le a b = true) (h2 : Date.le b a = true) :
    a = b := by
  rw [date_le_iff, date_lt_iff, date_eq_iff a b] at h1
  rw [date_le_iff, date_lt_iff, date_eq_iff b a] at h2
  rw [date_eq_iff a b]
  omega

/-- The non-strict date order is reflexive. -/
theorem Date.le_refl (a : Date) : Date.le a a = true := by
  rw [date_le_iff]; right; rfl

/-- A timestamp at or below the watermark is not strictly above it. -/
theorem DateTime.not_lt_of_le {a b : DateTime} (h : DateTime.le a b = true) :
    DateTime.lt b a = false := by
  rw [dateTime_le_iff, dateTime_lt_iff, date_lt_iff, time_lt_iff, dateTime_eq_iff,
    date_eq_iff, time_eq_iff] at h
  rw [← Bool.not_eq_true, dateTime_lt_iff, date_lt_iff, time_lt_iff, date_eq_iff]
  omega

/-- The date component of a timestamp bounded by the watermark is bounded by
the watermark date. -/
theorem DateTime.date_le_of_le {a b : DateTime} (h : DateTime.le a b = true) :
    Date.le a.date b.date = true := by
  rw [dateTime_le_iff, dateTime_lt_iff, date_lt_iff, time_lt_iff, dateTime_eq_iff,
    date_eq_iff, time_eq_iff] at h
  rw [date_le_iff, date_lt_iff, date_eq_iff]
  omega

/-- One access-log row under the fixed 14-column schema of ReadIISLogs.py
(header at lines 172-174; the old Einstein server variant without cs_referer).
log_date and log_time are kept typed, as pandas to_datetime parses them for
the boundary filter; the remaining columns are text. -/
structure LogRow where
  log_date : Date
  log_time : Time
  s_ip : String
  cs_method : String
  cs_uri_stem : String
  cs_uri_query : String
  s_port : String
  cs_username : String
  c_ip : String
  cs_user_agent : String
  sc_status : String
  sc_substatus : String
  sc_win32_status : String
  time_taken : String
deriving DecidableEq, Repr

/-- The combined per-row timestamp built at line 218 from log_date and log_time. -/
def LogRow.dt (r : LogRow) : DateTime := ⟨r.log_date, r.log_time⟩

/-- Python string slicing s[:n] on the character level. -/
def strTake (n : Nat) (s : String) : String := ⟨s.data.take n⟩

/-- The truncation step of readNewerLogs, lines 224-228:
cs_uri_stem to 499, cs_uri_query and cs_username to 255, cs_user_agent to 399
characters; every other column is left alone and no row is removed. -/
def truncateRow (r : LogRow) : LogRow :=
  ⟨r.log_date, r.log_time, r.s_ip, r.cs_method,
    strTake 499 r.cs_uri_stem, strTake 255 r.cs_uri_query, r.s_port,
    strTake 255 r.cs_username, r.c_ip, strTake 399 r.cs_user_agent,
    r.sc_status, r.sc_substatus, r.sc_win32_status, r.time_taken⟩

/-- Python file.rsplit(chr(92), 1)[-1]: the part of the path after the last
backslash, or the whole string when no backslash occurs. -/
def pyBasename (s : String) : String :=
  ⟨s.data.foldl (fun acc c => if c = '\\' then [] else acc ++ [c]) []⟩

/-- Decimal value of an ASCII digit, none for any other character. -/
def digitVal (c : Char) : Option Nat :=
  if c.isDigit then some (c.toNat - 48) else none

/-- Gregorian leap-year rule, as applied by datetime.strptime when validating
a day-of-month. -/
def isLeapYear (y : Nat) : Bool :=
  (y % 4 == 0 && y % 100 != 0) || y % 400 == 0

/-- Number of days in a month, used by strptime to validate the day field. -/
def daysInMonth (y m : Nat) : Nat :=
  if m = 2 then (if isLeapYear y then 29 else 28)
  else if m = 4 ∨ m = 6 ∨ m = 9 ∨ m = 11 then 30
  else 31

/-- datetime.strptime(s, "%y%m%d") on the six-character filename slice: two
digits each for year, month and day; %y maps 00-68 to 2000-2068 and 69-99 to
1969-1999; month and day must be in calendar range, else ValueError (none). -/
def parseYYMMDD : List Char → Option Date
  | [y1, y2, m1, m2, d1, d2] =>
    match digitVal y1, digitVal y2, digitVal m1, digitVal m2, digitVal d1, digitVal d2 with
    | some a, some b, some c, some d, some e, some f =>
      let yy := 10 * a + b
      let mm := 10 * c + d
      let dd := 10 * e + f
      let year := if yy ≤ 68 then 2000 + yy else 1900 + yy
      if 1 ≤ mm ∧ mm ≤ 12 ∧ 1 ≤ dd ∧ dd ≤ daysInMonth year mm then
        some ⟨year, mm, dd⟩
      else none
    | _, _, _, _, _, _ => none
  | _ => none

/-- Filename-date extraction of readNewerLogs, lines 190-192:
sfName = file.rsplit(backslash, 1)[-1]; sfDate = sfName[4:10];
datetime.strptime(sfDate, "%y%m%d"). none models the ValueError strptime
raises on an unparseable slice. -/
def parseFileDate (name : String) : Option Date :=
  parseYYMMDD (((pyBasename name).data.drop 4).take 6)

/-- An on-disk log file: its path and the rows its content parses to.
Row extraction itself (read_csv or the fallback) is modelled separately by
readFileTheHardWay; the selection logic of readNewerLogs treats content as rows. -/
structure LogFile where
  name : String
  rows : List LogRow
deriving DecidableEq, Repr

/-- The per-included-file processing of readNewerLogs, lines 213-228: when the
file date equals the watermark date, keep only rows whose combined timestamp is
strictly greater than the watermark (lines 218-222); then truncate the long
text fields (lines 224-228). -/
def processIncludedFile (wm : DateTime) (fdate : Date) (rows : List LogRow) : List LogRow :=
  (if wm.date == fdate then rows.filter (fun r => DateTime.lt wm r.dt) else rows).map
    truncateRow

/-- The file loop of readNewerLogs, lines 187-241, with the frames accumulator.
A filename whose date slice does not parse raises ValueError at line 192, which
the outer handler at lines 245-248 turns into returning the initial empty
dataframe: modelled by returning [] and discarding all accumulated frames. -/
def readNewerLogsAux (wm : DateTime) : List LogFile → List (List LogRow) → List LogRow
  | [], frames => frames.reverse.flatten
  | f :: rest, frames =>
    match parseFileDate f.name with
    | none => []
    | some d =>
      if Date.le wm.date d then
        readNewerLogsAux wm rest (processIncludedFile wm d f.rows :: frames)
      else
        readNewerLogsAux wm rest frames

/-- readNewerLogs, lines 156-248: select files by embedded date against the
watermark, filter the boundary file by full timestamp, truncate fields and
concatenate the per-file frames in file order. -/
def readNewerLogs (wm : DateTime) (files : List LogFile) : List LogRow :=
  readNewerLogsAux wm files []

/-- Whether the file loop hits an unparseable filename date: every file in the
list has its name parsed at line 192 before any skip decision, so the run
aborts exactly when some file in the list fails to parse. -/
def readAborts (files : List LogFile) : Bool :=
  files.any (fun f => (parseFileDate f.name).isNone)

/-- Decomposition of the accumulator: unless the run aborts, frames already
gathered are emitted, in order, in front of what the remaining files yield. -/
theorem readNewerLogsAux_decompose (wm : DateTime) (files : List LogFile) :
    ∀ frames : List (List LogRow),
      readNewerLogsAux wm files frames =
        if readAborts files then [] else frames.reverse.flatten ++ readNewerLogsAux wm files [] := by
  induction files with
  | nil =>
    intro frames
    simp [readNewerLogsAux, readAborts]
  | cons f rest ih =>
    intro frames
    cases hp : parseFileDate f.name with
    | none =>
      simp [readNewerLogsAux, readAborts, hp]
    | some d =>
      have habort : readAborts (f :: rest) = readAborts rest := by
        simp [readAborts, hp]
      by_cases hle : Date.le wm.date d = true
      · simp only [readNewerLogsAux, hp, hle, if_true, habort]
        rw [ih (processIncludedFile wm d f.rows :: frames),
          ih [processIncludedFile wm d f.rows]]
        cases hab : readAborts rest with
        | true => simp
        | false =>
          simp [List.reverse_cons, List.flatten_append, List.append_assoc]
      · have hle' : Date.le wm.date d = false := by
          simpa using hle
        simp only [readNewerLogsAux, hp, hle', if_false, habort]
        exact ih frames

/-- An aborted run returns the initial empty dataframe whatever was gathered. -/
theorem readNewerLogsAux_aborts (wm : DateTime) (files : List LogFile)
    (h : readAborts files = true) :
    ∀ frames, readNewerLogsAux wm files frames = [] := by
  induction files with
  | nil => simp [readAborts] at h
  | cons f rest ih =>
    intro frames
    cases hp : parseFileDate f.name with
    | none => simp [readNewerLogsAux, hp]
    | some d =>
      have hr : readAborts rest = true := by
        simpa [readAborts, hp] using h
      by_cases hle : Date.le wm.date d = true
      · simp only [readNewerLogsAux, hp, hle, if_true]
        exact ih hr _
      · have hle' : Date.le wm.date d = false := by simpa using hle
        simp only [readNewerLogsAux, hp, hle', if_false]
        exact ih hr _

/-- readFileTheHardWay, lines 121-153: walk the file line by line; a line whose
first character is the comment mark (linestr[:1] != chr(35)) is skipped;
otherwise the line is split on single spaces (Python str.split(sep), which
String.splitOn matches, empty pieces kept) and appended exactly when the split
has the expected number of columns. -/
def readFileTheHardWay (lines : List String) (numCols : Nat) : List (List String) :=
  match lines with
  | [] => []
  | l :: rest =>
    if strTake 1 l ≠ "#" then
      let lineitems := l.splitOn " "
      if lineitems.length = numCols then lineitems :: readFileTheHardWay rest numCols
      else readFileTheHardWay rest numCols
    else readFileTheHardWay rest numCols

/-- A non-comment line whose split has exactly the expected column count. -/
def goodLine (numCols : Nat) (l : String) : Bool :=
  (strTake 1 l != "#") && ((l.splitOn " ").length == numCols)

/-- Whether the needle list is an initial segment of the haystack list. -/
def isPrefixList : List Char → List Char → Bool
  | [], _ => true
  | _ :: _, [] => false
  | a :: as, b :: bs => (a == b) && isPrefixList as bs

/-- Whether the needle occurs as a contiguous run inside the haystack:
the substring test behind the pandas Series.str.contains call at lines 381 and
391 (the filter strings used are literal, without regex metacharacters). -/
def containsSub (needle : List Char) : List Char → Bool
  | [] => needle.isEmpty
  | c :: rest => isPrefixList needle (c :: rest) || containsSub needle rest

/-- The exact, case-sensitive method comparison of lines 377 and 386. -/
def methodPred (m : String) (r : LogRow) : Bool := r.cs_method == m

/-- The uri-stem containment test of lines 381 and 391. -/
def uriPred (u : String) (r : LogRow) : Bool := containsSub u.data r.cs_uri_stem.data

/-- The filter stage of the main block, lines 374-395. The dataframe rows hold
no missing values, so df.where(cond).dropna() keeps exactly the rows satisfying
cond. Both filters given: method filter first, then the URI filter on the
narrowed set; one filter given: that filter alone over the whole set; neither
given (both argparse defaults are the empty string): the rows pass unchanged. -/
def filterStage (m u : String) (rows : List LogRow) : List LogRow :=
  if 0 < m.length ∧ 0 < u.length then
    (rows.filter (methodPred m)).filter (uriPred u)
  else if 0 < m.length then
    rows.filter (methodPred m)
  else if 0 < u.length then
    rows.filter (uriPred u)
  else
    rows

/-- Outcome of a database query as seen by the two reader functions: either the
fetched rows, or a raised psycopg2 error. -/
inductive DBQueryResult (α : Type) where
  | ok (rows : α)
  | err
deriving DecidableEq, Repr

/-- The sentinel watermark returned at line 104 when the logs table is empty:
datetime.strptime("1972/06/30", "%Y/%m/%d"), midnight. -/
def sentinelDateTime : DateTime := ⟨⟨1972, 6, 30⟩, ⟨0, 0, 0⟩⟩

/-- readLastDateTimeProcessed, lines 63-118, over the outcome of its max-date
query: on a raised error the handlers at lines 110-118 return None; on success
with no rows the sentinel is returned (lines 101-107); otherwise the first
fetched (log_date, log_time) pair is combined into the watermark (lines 84-95). -/
def readLastDateTimeProcessed : DBQueryResult (List (Date × Time)) → Option DateTime
  | .err => none
  | .ok [] => some sentinelDateTime
  | .ok (r :: _) => some ⟨r.1, r.2⟩

/-- GeolocateIPs.getIPsToLookup, lines 39-74, over the outcome of its diff
query: on success the fetched IPs are returned; on a raised error the handlers
at lines 66-74 return returnList, which still holds its initial value [] from
line 45. -/
def getIPsToLookup : DBQueryResult (List String) → List String
  | .err => []
  | .ok rows => rows

/-- Observable actions of a run of either main block: ordinary log/print
output, the error line written by the except branch, the TOTAL SCRIPT RUN TIME
line of the finally branch, and the unhandled NameError traceback. -/
inductive Event where
  | info (msg : String)
  | errorLogged
  | elapsedReport
  | unhandledNameError
deriving DecidableEq, Repr

/-- Where a run of a main block stops: configFail models an exception raised
inside the try before time_ScriptStarted is assigned (ReadIISLogs.py lines
325-343, GeolocateIPs.py lines 163-179, e.g. a missing config.pkl); bodyFail an
exception raised later; success a clean run. -/
inductive RunOutcome where
  | configFail
  | bodyFail
  | success
deriving DecidableEq, Repr

/-- The finally branch of both main blocks (ReadIISLogs.py lines 435-438,
GeolocateIPs.py lines 238-241): it evaluates Util.timeElapsed(time_ScriptStarted)
first; when that name was never assigned, the NameError escapes before any
elapsed output is produced; otherwise the elapsed line and the closing
Processing Complete line are emitted. -/
def finallyTrace (startTimeBound : Bool) : List Event :=
  if startTimeBound then [Event.elapsedReport, Event.info "Processing Complete"]
  else [Event.unhandledNameError]

/-- Observable trace of one run of a main block: the except branch logs the
captured exception (lines 431-433 / 234-236), then the finally branch runs with
time_ScriptStarted bound only when the try got past the config load. -/
def mainTrace : RunOutcome → List Event
  | .configFail => Event.errorLogged :: finallyTrace false
  | .bodyFail => Event.info "Processing Starting" :: Event.errorLogged :: finallyTrace true
  | .success => Event.info "Processing Starting" :: finallyTrace true

/-- Character-level truncation never exceeds the requested width. -/
theorem strTake_length_le (n : Nat) (s : String) : (strTake n s).length ≤ n := by
  show (s.data.take n).length ≤ n
  rw [List.length_take]
  exact min_le_left _ _

/-- Every row in a processed frame is the truncation of some source row. -/
theorem mem_processIncludedFile {wm : DateTime} {d : Date} {rows : List LogRow} {r : LogRow}
    (h : r ∈ processIncludedFile wm d rows) : ∃ r0, r = truncateRow r0 := by
  simp only [processIncludedFile, List.mem_map] at h
  obtain ⟨a, _, ha⟩ := h
  exact ⟨a, ha.symm⟩

/-- Every row the file loop emits is the truncation of some source row,
provided the rows already gathered in the accumulator are. -/
theorem mem_readNewerLogsAux_truncated (wm : DateTime) :
    ∀ (files : List LogFile) (frames : List (List LogRow)),
      (∀ l ∈ frames, ∀ r ∈ l, ∃ r0, r = truncateRow r0) →
      ∀ r' ∈ readNewerLogsAux wm files frames, ∃ r0, r' = truncateRow r0 := by
  intro files
  induction files with
  | nil =>
    intro frames hf r' hr'
    simp only [readNewerLogsAux, List.mem_flatten] at hr'
    obtain ⟨l, hl, hrl⟩ := hr'
    exact hf l (List.mem_reverse.mp hl) r' hrl
  | cons f rest ih =>
    intro frames hf r' hr'
    cases hp : parseFileDate f.name with
    | none => simp [readNewerLogsAux, hp] at hr'
    | some d =>
      by_cases hle : Date.le wm.date d = true
      · simp only [readNewerLogsAux, hp, hle, if_true] at hr'
        refine ih (processIncludedFile wm d f.rows :: frames) ?_ r' hr'
        intro l hl r hr
        rcases List.mem_cons.mp hl with h | h
        · subst h
          exact mem_processIncludedFile hr
        · exact hf l h r hr
      · have hle' : Date.le wm.date d = false := by simpa using hle
        simp only [readNewerLogsAux, hp, hle', Bool.false_eq_true, if_false] at hr'
        exact ih frames hf r' hr'

/-- A sample log row at the given date and time, with fixed text columns. -/
def rowAt (d : Date) (t : Time) : LogRow :=
  ⟨d, t, "10.0.0.5", "GET", "/TrainingMaterials/SAR/doc.pdf", "-", "443", "-",
    "8.8.8.8", "Mozilla/5.0", "200", "0", "0", "15"⟩

/-- C2: Boundary exactness. For a file whose embedded filename date equals the
watermark date, the ingestion step keeps exactly the rows whose combined
log_date + log_time timestamp is strictly greater than the watermark (then
truncates their long fields); every row at or before the watermark is dropped. -/
theorem boundary_exactness (wm : DateTime) (f : LogFile)
    (h : parseFileDate f.name = some wm.date) :
    readNewerLogs wm [f] =
      (f.rows.filter (fun r => DateTime.lt wm r.dt)).map truncateRow := by
  simp [readNewerLogs, readNewerLogsAux, h, Date.le_refl, processIncludedFile]

def wmC2 : DateTime := ⟨⟨2024, 4, 19⟩, ⟨10, 0, 0⟩⟩

def fileC2 : LogFile :=
  ⟨"u_ex240419.log", [rowAt ⟨2024, 4, 19⟩ ⟨10, 0, 0⟩, rowAt ⟨2024, 4, 19⟩ ⟨10, 0, 1⟩]⟩

/-- C2 witness: with watermark 2024-04-19 10:00:00 and the matching-date file,
the row at 10:00:00 is excluded and the row at 10:00:01 is kept. -/
theorem boundary_exactness_witness :
    readNewerLogs wmC2 [fileC2] = [truncateRow (rowAt ⟨2024, 4, 19⟩ ⟨10, 0, 1⟩)] :=
  (boundary_exactness wmC2 fileC2 (by decide)).trans (by decide)

/-- C3: File-date skip. A file whose embedded filename date is strictly earlier
than the watermark date contributes zero rows whatever its content: removing it
from the directory listing leaves the ingestion result unchanged. A file whose
embedded date is greater than or equal to the watermark date is read: alone it
yields exactly its processed (boundary-filtered, truncated) rows. -/
theorem file_date_skip (wm : DateTime) (f : LogFile) (d : Date)
    (h1 : parseFileDate f.name = some d) :
    (Date.lt d wm.date = true →
      ∀ pre post : List LogFile,
        readNewerLogs wm (pre ++ f :: post) = readNewerLogs wm (pre ++ post)) ∧
    (Date.le wm.date d = true →
      readNewerLogs wm [f] = processIncludedFile wm d f.rows) := by
  constructor
  · intro hlt pre post
    have hle : Date.le wm.date d = false := Date.not_le_of_lt hlt
    have key : ∀ (pre : List LogFile) (frames : List (List LogRow)),
        readNewerLogsAux wm (pre ++ f :: post) frames =
          readNewerLogsAux wm (pre ++ post) frames := by
      intro pre
      induction pre with
      | nil =>
        intro frames
        simp [readNewerLogsAux, h1, hle]
      | cons p pre ihp =>
        intro frames
        cases hp : parseFileDate p.name with
        | none => simp [readNewerLogsAux, hp]
        | some dp =>
          by_cases hpl : Date.le wm.date dp = true
          · simp [readNewerLogsAux, hp, hpl, ihp]
          · have hpl' : Date.le wm.date dp = false := by simpa using hpl
            simp [readNewerLogsAux, hp, hpl', ihp]
    exact key pre []
  · intro hle
    simp [readNewerLogs, readNewerLogsAux, h1, hle]

def wmC3 : DateTime := ⟨⟨2024, 4, 19⟩, ⟨10, 0, 0⟩⟩

def oldFileC3 : LogFile := ⟨"u_ex240418.log", [rowAt ⟨2024, 4, 18⟩ ⟨23, 0, 0⟩]⟩

def newFileC3 : LogFile := ⟨"u_ex240420.log", [rowAt ⟨2024, 4, 20⟩ ⟨1, 0, 0⟩]⟩

/-- C3 witness: the 2024-04-18 file is skipped outright next to the 2024-04-20
file, and the 2024-04-20 file alone is read in full. -/
theorem file_date_skip_witness :
    readNewerLogs wmC3 ([newFileC3] ++ oldFileC3 :: []) =
      readNewerLogs wmC3 ([newFileC3] ++ []) ∧
    readNewerLogs wmC3 [newFileC3] =
      processIncludedFile wmC3 ⟨2024, 4, 20⟩ newFileC3.rows :=
  ⟨(file_date_skip wmC3 oldFileC3 ⟨2024, 4, 18⟩ (by decide)).1 (by decide) [newFileC3] [],
    (file_date_skip wmC3 newFileC3 ⟨2024, 4, 20⟩ (by decide)).2 (by decide)⟩

/-- C4: Malformed line tolerance. The fallback line-by-line parse skips every
line whose first character is the comment mark and keeps exactly the remaining
lines whose split on single spaces has the expected column count, in order, so
a file with N well-formed and M wrong-column-count lines yields exactly N rows
and malformed lines are dropped without failing the file. -/
theorem malformed_line_tolerance (lines : List String) (numCols : Nat) :
    readFileTheHardWay lines numCols =
      (lines.filter (goodLine numCols)).map (fun l => l.splitOn " ") ∧
    (readFileTheHardWay lines numCols).length =
      (lines.filter (goodLine numCols)).length := by
  have h : ∀ ls : List String, readFileTheHardWay ls numCols =
      (ls.filter (goodLine numCols)).map (fun l => l.splitOn " ") := by
    intro ls
    induction ls with
    | nil => rfl
    | cons l rest ih =>
      by_cases h1 : strTake 1 l = "#"
      · simp [readFileTheHardWay, goodLine, h1, ih]
      · by_cases h2 : (l.splitOn " ").length = numCols
        · simp [readFileTheHardWay, goodLine, h1, h2, ih]
        · simp [readFileTheHardWay, goodLine, h1, h2, ih]
  exact ⟨h lines, by rw [h lines, List.length_map]⟩

/-- All combined row timestamps across a set of log files. -/
def allRowTimestamps (files : List LogFile) : List DateTime :=
  (files.map (fun f => f.rows.map LogRow.dt)).flatten

/-- Maximum of a list of combined timestamps, none for the empty list. -/
def maxTimestamp (l : List DateTime) : Option DateTime :=
  l.foldl
    (fun acc dt =>
      match acc with
      | none => some dt
      | some m => if DateTime.lt m dt then some dt else some m)
    none

def wmC1 : DateTime := ⟨⟨2024, 4, 19⟩, ⟨10, 0, 0⟩⟩

/-- A file whose embedded name date (2024-04-20) is later than the date of the
row it holds (2024-04-19). -/
def filesC1 : List LogFile := [⟨"u_ex240420.log", [rowAt ⟨2024, 4, 19⟩ ⟨10, 0, 0⟩]⟩]

/-- C1 counterexample: the watermark equals the maximum combined timestamp over
all rows of the file set, yet the run selects a row. The file is named for
2024-04-20, so its date is strictly later than the watermark date and the file
is taken whole, re-ingesting its 2024-04-19 row. -/
theorem reingestion_not_idempotent :
    maxTimestamp (allRowTimestamps filesC1) = some wmC1 ∧
    (readNewerLogs wmC1 filesC1).isEmpty = false := by
  exact ⟨rfl, rfl⟩

/-- C1 amended: idempotent re-ingestion holds for file sets in which every row
carries the log_date embedded in its file name (the IIS daily-rotation
invariant). If the watermark is at least every combined row timestamp — in
particular when it equals their maximum — the ingestion run selects zero rows. -/
theorem readNewerLogs_idempotent (wm : DateTime) (files : List LogFile)
    (hfd : ∀ f ∈ files, ∀ r ∈ f.rows, parseFileDate f.name = some r.log_date)
    (hle : ∀ f ∈ files, ∀ r ∈ f.rows, DateTime.le r.dt wm = true) :
    readNewerLogs wm files = [] := by
  induction files with
  | nil => rfl
  | cons f rest ih =>
    have ihr : readNewerLogs wm rest = [] :=
      ih (fun g hg => hfd g (List.mem_cons_of_mem f hg))
        (fun g hg => hle g (List.mem_cons_of_mem f hg))
    cases hp : parseFileDate f.name with
    | none => simp [readNewerLogs, readNewerLogsAux, hp]
    | some d =>
      by_cases hl : Date.le wm.date d = true
      · have hP : processIncludedFile wm d f.rows = [] := by
          by_cases heq : wm.date = d
          · have hfil : f.rows.filter (fun r => DateTime.lt wm r.dt) = [] := by
              rw [List.filter_eq_nil_iff]
              intro r hr
              simp [DateTime.not_lt_of_le (hle f (List.mem_cons_self f rest) r hr)]
            simp [processIncludedFile, heq, hfil]
          · have hrows : f.rows = [] := by
              rw [List.eq_nil_iff_forall_not_mem]
              intro r hr
              have h1 := hfd f (List.mem_cons_self f rest) r hr
              rw [hp] at h1
              injection h1 with h1
              have h2 := hle f (List.mem_cons_self f rest) r hr
              have h3 : Date.le r.log_date wm.date = true := DateTime.date_le_of_le h2
              rw [← h1] at h3
              exact heq (Date.le_antisymm hl h3)
            simp [processIncludedFile, hrows]
        simp only [readNewerLogs, readNewerLogsAux, hp, hl, if_true, hP]
        rw [readNewerLogsAux_decompose wm rest [[]]]
        cases hab : readAborts rest with
        | true => simp
        | false =>
          unfold readNewerLogs at ihr
          simpa using ihr
      · have hl' : Date.le wm.date d = false := by simpa using hl
        simp only [readNewerLogs, readNewerLogsAux, hp, hl', Bool.false_eq_true, if_false]
        exact ihr

def wmW1 : DateTime := ⟨⟨2024, 4, 19⟩, ⟨10, 0, 0⟩⟩

def filesW1 : List LogFile :=
  [⟨"u_ex240418.log", [rowAt ⟨2024, 4, 18⟩ ⟨9, 0, 0⟩]⟩,
   ⟨"u_ex240419.log", [rowAt ⟨2024, 4, 19⟩ ⟨10, 0, 0⟩]⟩]

/-- C1 amended witness: two well-named daily files whose rows all lie at or
before the watermark 2024-04-19 10:00:00 produce an empty second run. -/
theorem readNewerLogs_idempotent_witness : readNewerLogs wmW1 filesW1 = [] :=
  readNewerLogs_idempotent wmW1 filesW1 (by decide) (by decide)

/-- C5: Filter composition. With both a non-empty method string and a
non-empty URI string, the filter stage applies the exact method filter and then
the URI containment filter to the narrowed set; the result is exactly the rows
satisfying both predicates, and a row lies in it exactly when it lies in each
filter applied independently to the original set. -/
theorem filter_composition (m u : String) (rows : List LogRow)
    (hm : 0 < m.length) (hu : 0 < u.length) :
    filterStage m u rows = rows.filter (fun r => methodPred m r && uriPred u r) ∧
    ∀ r, r ∈ filterStage m u rows ↔
      (r ∈ rows.filter (methodPred m) ∧ r ∈ rows.filter (uriPred u)) := by
  have h1 : filterStage m u rows = (rows.filter (methodPred m)).filter (uriPred u) := by
    simp [filterStage, hm, hu]
  have h2 : filterStage m u rows =
      rows.filter (fun r => methodPred m r && uriPred u r) := by
    rw [h1, List.filter_filter]
    exact List.filter_congr (fun a _ => Bool.and_comm _ _)
  refine ⟨h2, fun r => ?_⟩
  rw [h2, List.mem_filter, List.mem_filter, List.mem_filter, Bool.and_eq_true]
  tauto

def rowsC5 : List LogRow :=
  [⟨⟨2024, 4, 19⟩, ⟨1, 0, 0⟩, "10.0.0.5", "GET", "/a/b", "-", "443", "-", "1.1.1.1",
      "agent", "200", "0", "0", "10"⟩,
   ⟨⟨2024, 4, 19⟩, ⟨2, 0, 0⟩, "10.0.0.5", "GET", "/c/d", "-", "443", "-", "1.1.1.2",
      "agent", "200", "0", "0", "10"⟩,
   ⟨⟨2024, 4, 19⟩, ⟨3, 0, 0⟩, "10.0.0.5", "POST", "/a/b", "-", "443", "-", "1.1.1.3",
      "agent", "200", "0", "0", "10"⟩,
   ⟨⟨2024, 4, 19⟩, ⟨4, 0, 0⟩, "10.0.0.5", "POST", "/c/d", "-", "443", "-", "1.1.1.4",
      "agent", "200", "0", "0", "10"⟩]

/-- C5 witness: over rows with methods GET and POST and uri stems /a/b and
/c/d, filtering with method GET and URI string /a composes to the conjunction
filter, which keeps exactly the GET /a/b row. -/
theorem filter_composition_witness :
    filterStage "GET" "/a" rowsC5 =
      rowsC5.filter (fun r => methodPred "GET" r && uriPred "/a" r) ∧
    filterStage "GET" "/a" rowsC5 =
      [⟨⟨2024, 4, 19⟩, ⟨1, 0, 0⟩, "10.0.0.5", "GET", "/a/b", "-", "443", "-", "1.1.1.1",
          "agent", "200", "0", "0", "10"⟩] :=
  ⟨(filter_composition "GET" "/a" rowsC5 (by decide) (by decide)).1, by decide⟩

/-- C10: Empty-string filter arguments disable filtering. With both filter
strings at their argparse defaults (the empty string) the filter stage returns
the row set unchanged, and an empty method string never restricts by method at
all (the stage degenerates to the pure URI filter, or to the identity), so the
command line cannot select rows whose cs_method field is itself empty. -/
theorem empty_filters_disable (rows : List LogRow) :
    filterStage "" "" rows = rows ∧
    ∀ u : String, 0 < u.length → filterStage "" u rows = rows.filter (uriPred u) := by
  have h0 : ¬ (0 < ("" : String).length) := by decide
  constructor
  · simp [filterStage, h0]
  · intro u hu
    simp [filterStage, h0, hu]

def rowsC10 : List LogRow :=
  [⟨⟨2024, 4, 19⟩, ⟨1, 0, 0⟩, "10.0.0.5", "GET", "/a/b", "-", "443", "-", "1.1.1.1",
      "agent", "200", "0", "0", "10"⟩,
   ⟨⟨2024, 4, 19⟩, ⟨2, 0, 0⟩, "10.0.0.5", "", "/c/d", "-", "443", "-", "1.1.1.2",
      "agent", "200", "0", "0", "10"⟩]

/-- C10 witness: on a set holding a row whose method field is empty, the
default empty filters return the set unchanged, and supplying only a URI string
applies just the URI filter. -/
theorem empty_filters_disable_witness :
    filterStage "" "" rowsC10 = rowsC10 ∧
    filterStage "" "/a" rowsC10 = rowsC10.filter (uriPred "/a") :=
  ⟨(empty_filters_disable rowsC10).1,
    (empty_filters_disable rowsC10).2 "/a" (by decide)⟩

/-- C6 counterexample: the geo-diff resolver returns the empty list when the
storage query raises, the very value it returns for an empty difference, so its
caller cannot distinguish a storage failure from nothing-to-look-up by result. -/
theorem geo_diff_error_indistinguishable :
    getIPsToLookup DBQueryResult.err = getIPsToLookup (DBQueryResult.ok ([] : List String)) ∧
    getIPsToLookup DBQueryResult.err = ([] : List String) :=
  ⟨rfl, rfl⟩

/-- C6 amended: the watermark reader distinguishes the two states — storage
failure yields None while success always yields a timestamp, the fixed
1972-06-30 sentinel on an empty table — but the geo-diff resolver returns the
empty list both on storage failure and on an empty difference, surfacing the
failure only in the log. -/
theorem error_vs_nodata :
    readLastDateTimeProcessed DBQueryResult.err = none ∧
    readLastDateTimeProcessed (DBQueryResult.ok []) = some sentinelDateTime ∧
    (∀ rows : List (Date × Time),
      (readLastDateTimeProcessed (DBQueryResult.ok rows)).isSome = true) ∧
    getIPsToLookup DBQueryResult.err = [] ∧
    (∀ rows : List String, getIPsToLookup (DBQueryResult.ok rows) = rows) := by
  refine ⟨rfl, rfl, ?_, rfl, fun rows => rfl⟩
  intro rows
  cases rows <;> rfl

def wmC7 : DateTime := ⟨⟨2024, 4, 18⟩, ⟨0, 0, 0⟩⟩

def goodFileC7 : LogFile := ⟨"u_ex240419.log", [rowAt ⟨2024, 4, 19⟩ ⟨8, 30, 0⟩]⟩

def badFileC7 : LogFile := ⟨"u_exBADDAY.log", []⟩

/-- C7 counterexample: one file with an unparseable name date next to a
well-named file holding a fresh row. Alone, the well-named file yields its row;
with the bad file present, the whole ingestion step returns the empty set, so
the rows of the other files are not unaffected. -/
theorem bad_filename_not_local :
    parseFileDate badFileC7.name = none ∧
    readNewerLogs wmC7 [goodFileC7, badFileC7] = [] ∧
    (readNewerLogs wmC7 [goodFileC7]).isEmpty = false :=
  ⟨rfl, rfl, rfl⟩

/-- C7 amended: a filename without a parseable date at the expected position is
fatal to the whole ingestion step, not just to that file: the strptime error
reaches the enclosing handler, which logs it and returns the initial empty
dataframe, discarding the rows of every other file in the directory. -/
theorem bad_filename_aborts (wm : DateTime) (pre post : List LogFile) (f : LogFile)
    (h : parseFileDate f.name = none) :
    readNewerLogs wm (pre ++ f :: post) = [] := by
  apply readNewerLogsAux_aborts
  rw [readAborts, List.any_eq_true]
  exact ⟨f, by simp, by simp [h]⟩

/-- C7 amended witness: the concrete two-file directory from the
counterexample aborts to the empty result. -/
theorem bad_filename_aborts_witness :
    readNewerLogs wmC7 ([goodFileC7] ++ badFileC7 :: []) = [] :=
  bad_filename_aborts wmC7 [goodFileC7] [] badFileC7 (by decide)

/-- C8: the claim that every run emits the elapsed-time report as its final
observable action fails on a configuration-load failure: time_ScriptStarted is
assigned only after the config read inside the try block, so the finally block
raises NameError while evaluating Util.timeElapsed(time_ScriptStarted) and the
run ends with a traceback, never printing the TOTAL SCRIPT RUN TIME line; on
runs that get past the config load the line is emitted. -/
theorem elapsed_missing_on_config_failure :
    mainTrace RunOutcome.configFail = [Event.errorLogged, Event.unhandledNameError] ∧
    (mainTrace RunOutcome.configFail).contains Event.elapsedReport = false ∧
    (mainTrace RunOutcome.bodyFail).contains Event.elapsedReport = true ∧
    (mainTrace RunOutcome.success).contains Event.elapsedReport = true := by
  refine ⟨rfl, ?_, ?_, ?_⟩ <;> rfl

/-- C9: Silent truncation. Every row the ingestion step emits has cs_uri_stem
of at most 499 characters, cs_uri_query and cs_username of at most 255, and
cs_user_agent of at most 399; the truncation map drops no row, and every other
field of a truncated row is unchanged. -/
theorem truncation_silent :
    (∀ (wm : DateTime) (files : List LogFile), ∀ r' ∈ readNewerLogs wm files,
      r'.cs_uri_stem.length ≤ 499 ∧ r'.cs_uri_query.length ≤ 255 ∧
      r'.cs_username.length ≤ 255 ∧ r'.cs_user_agent.length ≤ 399) ∧
    (∀ rows : List LogRow, (rows.map truncateRow).length = rows.length) ∧
    (∀ r : LogRow,
      (truncateRow r).log_date = r.log_date ∧ (truncateRow r).log_time = r.log_time ∧
      (truncateRow r).s_ip = r.s_ip ∧ (truncateRow r).cs_method = r.cs_method ∧
      (truncateRow r).s_port = r.s_port ∧ (truncateRow r).c_ip = r.c_ip ∧
      (truncateRow r).sc_status = r.sc_status ∧
      (truncateRow r).sc_substatus = r.sc_substatus ∧
      (truncateRow r).sc_win32_status = r.sc_win32_status ∧
      (truncateRow r).time_taken = r.time_taken) := by
  refine ⟨?_, ?_, ?_⟩
  · intro wm files r' hr'
    obtain ⟨r0, rfl⟩ := mem_readNewerLogsAux_truncated wm files [] (by simp) r' hr'
    exact ⟨strTake_length_le _ _, strTake_length_le _ _,
      strTake_length_le _ _, strTake_length_le _ _⟩
  · intro rows
    exact List.length_map rows truncateRow
  · intro r
    exact ⟨rfl, rfl, rfl, rfl, rfl, rfl, rfl, rfl, rfl, rfl⟩

def wmC9 : DateTime := ⟨⟨2024, 4, 18⟩, ⟨0, 0, 0⟩⟩

/-- A row whose uri stem is 600 characters long. -/
def rowLongC9 : LogRow :=
  ⟨⟨2024, 4, 19⟩, ⟨7, 0, 0⟩, "10.0.0.5", "GET", ⟨List.replicate 600 'a'⟩, "-", "443",
    "-", "1.1.1.1", "agent", "200", "0", "0", "10"⟩

def filesC9 : List LogFile := [⟨"u_ex240419.log", [rowLongC9]⟩]

set_option maxRecDepth 4000 in
/-- C9 witness: the ingested image of a row with a 600-character uri stem obeys
all four width bounds (its stem is cut to 499 characters, without raising). -/
theorem truncation_silent_witness :
    (truncateRow rowLongC9).cs_uri_stem.length ≤ 499 ∧
    (truncateRow rowLongC9).cs_uri_query.length ≤ 255 ∧
    (truncateRow rowLongC9).cs_username.length ≤ 255 ∧
    (truncateRow rowLongC9).cs_user_agent.length ≤ 399 :=
  truncation_silent.1 wmC9 filesC9 (truncateRow rowLongC9) (by decide)

end IISLogger
